import Mathlib

/-
Verification of the streamed-download consumer implemented in
src/StreamingDownload.tsx (function handleDownload, lines 20 to 94).

Modelling conventions:
* A byte is a Nat below 256; a chunk delivered by the stream reader is a
  List Nat; the stream is the list of delivered chunks in arrival order.
* A JavaScript string is modelled as its list of UTF-16 code units
  (List Nat).  String indices in JavaScript, in particular the result of
  String.prototype.indexOf, are code-unit indices, which is why the
  decoder below produces UTF-16 code units and not code points.
* new TextDecoder().decode is the WHATWG UTF-8 decoder: invalid input
  produces U+FFFD and decoding restarts at the offending byte.
* parseInt(s, 10) returns NaN or an integer.  NaN is collapsed with
  undefined into Option.none: in handleDownload the variable totalLength
  is only ever consumed through the truthiness test on line 74 and the
  division on line 75 (guarded by that test), and undefined and NaN are
  both falsy, so the collapse is observationally faithful.
* The numeric JavaScript values receivedLength and totalLength are exact
  integers in every reachable run we consider, so Int models them; the
  progress percentage (line 75) is a rational.
-/

namespace StreamingDownload

/-- Code units of an ASCII or BMP string literal, used to write byte and
string constants readably. -/
def str (s : String) : List Nat := s.data.map Char.toNat

/-- Download mode chosen in the UI, field downloadType of the component. -/
inductive DownloadType where
  | video
  | audio
deriving DecidableEq

/-- WHATWG UTF-8 decoding to UTF-16 code units, the semantics of
new TextDecoder().decode(value) on line 54 and 55 of the source.  Each
well-formed scalar value becomes one code unit (BMP) or a surrogate pair
(astral); malformed input emits U+FFFD and resumes at the byte after the
longest valid prefix of a sequence, per the replacement behaviour of the
WHATWG decoder. -/
def utf8ToUtf16 : List Nat → List Nat
  | [] => []
  | b :: bs =>
    if b < 0x80 then b :: utf8ToUtf16 bs
    else if b < 0xC2 then 0xFFFD :: utf8ToUtf16 bs
    else if b < 0xE0 then
      match bs with
      | [] => [0xFFFD]
      | c1 :: bs1 =>
        if 0x80 ≤ c1 ∧ c1 ≤ 0xBF then
          ((b - 0xC0) * 0x40 + (c1 - 0x80)) :: utf8ToUtf16 bs1
        else 0xFFFD :: utf8ToUtf16 (c1 :: bs1)
    else if b < 0xF0 then
      match bs with
      | [] => [0xFFFD]
      | c1 :: bs1 =>
        if (if b = 0xE0 then 0xA0 else 0x80) ≤ c1 ∧
            c1 ≤ (if b = 0xED then 0x9F else 0xBF) then
          match bs1 with
          | [] => [0xFFFD]
          | c2 :: bs2 =>
            if 0x80 ≤ c2 ∧ c2 ≤ 0xBF then
              ((b - 0xE0) * 0x1000 + (c1 - 0x80) * 0x40 + (c2 - 0x80)) ::
                utf8ToUtf16 bs2
            else 0xFFFD :: utf8ToUtf16 (c2 :: bs2)
        else 0xFFFD :: utf8ToUtf16 (c1 :: bs1)
    else if b < 0xF5 then
      match bs with
      | [] => [0xFFFD]
      | c1 :: bs1 =>
        if (if b = 0xF0 then 0x90 else 0x80) ≤ c1 ∧
            c1 ≤ (if b = 0xF4 then 0x8F else 0xBF) then
          match bs1 with
          | [] => [0xFFFD]
          | c2 :: bs2 =>
            if 0x80 ≤ c2 ∧ c2 ≤ 0xBF then
              match bs2 with
              | [] => [0xFFFD]
              | c3 :: bs3 =>
                if 0x80 ≤ c3 ∧ c3 ≤ 0xBF then
                  (0xD800 + ((b - 0xF0) * 0x40000 + (c1 - 0x80) * 0x1000 +
                      (c2 - 0x80) * 0x40 + (c3 - 0x80) - 0x10000) / 0x400) ::
                  (0xDC00 + ((b - 0xF0) * 0x40000 + (c1 - 0x80) * 0x1000 +
                      (c2 - 0x80) * 0x40 + (c3 - 0x80) - 0x10000) % 0x400) ::
                    utf8ToUtf16 bs3
                else 0xFFFD :: utf8ToUtf16 (c3 :: bs3)
            else 0xFFFD :: utf8ToUtf16 (c2 :: bs2)
        else 0xFFFD :: utf8ToUtf16 (c1 :: bs1)
    else 0xFFFD :: utf8ToUtf16 bs

/-- text.indexOf(c) on a JavaScript string (line 56), as an Option:
none models the JavaScript result -1. -/
def jsIndexOf : List Nat → Nat → Option Nat
  | [], _ => none
  | x :: xs, c => if x = c then some 0 else (jsIndexOf xs c).map (· + 1)

/-- The ECMAScript StrWhiteSpaceChar set skipped by parseInt. -/
def isJsWhitespace (c : Nat) : Bool :=
  c = 9 || c = 10 || c = 11 || c = 12 || c = 13 || c = 32 || c = 160 ||
  c = 0x1680 || (0x2000 ≤ c && c ≤ 0x200A) || c = 0x2028 || c = 0x2029 ||
  c = 0x202F || c = 0x205F || c = 0x3000 || c = 0xFEFF

/-- parseInt(s, 10) on line 61: skip leading whitespace, read an optional
sign and a maximal run of decimal digits, NaN (none) when the run is
empty.  (The double rounding of very long digit strings is not modelled;
no claim depends on values beyond exact integer range.) -/
def jsParseInt10 (s : List Nat) : Option Int :=
  let s1 := s.dropWhile isJsWhitespace
  let signAndRest : Bool × List Nat :=
    match s1 with
    | 43 :: r => (false, r)
    | 45 :: r => (true, r)
    | _ => (false, s1)
  let ds := signAndRest.2.takeWhile (fun c => 48 ≤ c && c ≤ 57)
  if ds.isEmpty then none
  else
    let n : Nat := ds.foldl (fun a c => a * 10 + (c - 48)) 0
    some (if signAndRest.1 then -(n : Int) else (n : Int))

/-- Lines 58 to 61: metadata.split(124).  The first segment (or the
fallback when it is empty, line 60) is the working file name; the second
segment parsed with parseInt is the total length.  A missing second
segment destructures to undefined, and parseInt of undefined is NaN,
hence none. -/
def parseMetadata (metadata : List Nat) (fallback : List Nat) :
    List Nat × Option Int :=
  let parts := List.splitOn 124 metadata
  let name := parts.headD []
  (if name = [] then fallback else name,
   match parts[1]? with
   | none => none
   | some sz => jsParseInt10 sz)

/-- The local state of one download attempt inside handleDownload:
lines 26 and 44 to 47 declare currentFileName, chunks, receivedLength,
totalLength and metadataReceived; fileNameSet records the argument of
the setFileName call on line 62 and progressEvents records every value
passed to setProgress on line 75, in order. -/
structure Session where
  chunks : List (List Nat)
  receivedLength : Int
  totalLength : Option Int
  metadataReceived : Bool
  currentFileName : List Nat
  fileNameSet : Option (List Nat)
  progressEvents : List ℚ
deriving DecidableEq

/-- The session state on entry to the read loop (lines 26, 44 to 47). -/
def initialSession : Session :=
  { chunks := []
    receivedLength := 0
    totalLength := none
    metadataReceived := false
    currentFileName := str ("download")
    fileNameSet := none
    progressEvents := [] }

/-- Lines 53 to 72, the body of the loop before the progress update: a
chunk arriving before the metadata transition is decoded and searched
for a line terminator; if none is found the chunk is dropped, otherwise
the text before the terminator is parsed as the header and the byte
array is sliced at the code-unit index of the terminator (lines 66 and
67); after the transition the whole chunk is buffered. -/
def bufferChunk (s : Session) (value : List Nat) : Session :=
  if s.metadataReceived then
    { s with
      chunks := s.chunks ++ [value]
      receivedLength := s.receivedLength + (value.length : Int) }
  else
    match jsIndexOf (utf8ToUtf16 value) 10 with
    | none => s
    | some idx =>
      let parsed := parseMetadata ((utf8ToUtf16 value).take idx) s.currentFileName
      { s with
        currentFileName := parsed.1
        totalLength := parsed.2
        fileNameSet := some parsed.1
        metadataReceived := true
        chunks := s.chunks ++ [value.drop (idx + 1)]
        receivedLength := s.receivedLength + ((value.length : Int) - ((idx : Int) + 1)) }

/-- Lines 74 to 76: setProgress((receivedLength / totalLength) * 100),
guarded by the truthiness of totalLength, so nothing is emitted while
totalLength is undefined or NaN (none) and also when it is 0. -/
def reportProgress (s : Session) : Session :=
  match s.totalLength with
  | none => s
  | some t =>
    if t = 0 then s
    else
      { s with
        progressEvents :=
          s.progressEvents ++ [((s.receivedLength : ℚ) / (t : ℚ)) * 100] }

/-- One iteration of the while loop, lines 49 to 77. -/
def readLoopStep (s : Session) (value : List Nat) : Session :=
  reportProgress (bufferChunk s value)

/-- The whole read loop over the delivered chunks, in arrival order. -/
def runLoop (cs : List (List Nat)) : Session :=
  cs.foldl readLoopStep initialSession

/-- Line 79: new Blob(chunks) concatenates the buffered byte arrays in
order with no re-encoding. -/
def assembledBlob (cs : List (List Nat)) : List Nat :=
  (runLoop cs).chunks.flatten

/-- Line 85: currentFileName.replace of the pattern dot followed by one
or more characters that are neither slash nor dot, anchored at the end.
Such a match, when it exists, is unique: it starts at the last dot of
the string, and exists exactly when something follows that dot and no
slash or further dot does.  Computed from the end of the string: the
maximal final run of non-dot non-slash characters is the candidate
extension; it is removed together with the dot preceding it when it is
nonempty and that dot exists. -/
def stripExt (s : List Nat) : List Nat :=
  if (s.reverse.takeWhile fun c => !(c == 46) && !(c == 47)).isEmpty then s
  else
    match s.reverse.drop (s.reverse.takeWhile fun c => !(c == 46) && !(c == 47)).length with
    | [] => s
    | d :: rest => if d = 46 then rest.reverse else s

/-- Line 84: the extension appended for the chosen mode. -/
def fileExt (dt : DownloadType) : List Nat :=
  if dt = DownloadType.audio then str (".mp3") else str (".mp4")

/-- Lines 84 and 85: the name assigned to the download anchor. -/
def outputFileName (name : List Nat) (dt : DownloadType) : List Nat :=
  stripExt name ++ fileExt dt

/-- Decimal rendering of a natural number, the template-literal
interpolation of response.status on line 39. -/
def natToUnits (n : Nat) : List Nat := (Nat.toDigits 10 n).map Char.toNat

/-- The observable behaviour of the external collaborators of one
attempt: the HTTP response (ok, status, error body text, presence of a
body), the chunks the stream reader delivers successfully, and an
exception message when reader.read() throws after those chunks. -/
structure Response where
  ok : Bool
  status : Nat
  errorBody : List Nat
  hasBody : Bool
  chunks : List (List Nat)
  readError : Option (List Nat)
deriving DecidableEq

/-- The observable outcome of one attempt: the error text shown (empty
when none), the last setFileName value, every setProgress value in
order, and the file handed to the saving anchor (bytes and download
name), none when line 79 is never reached. -/
structure AttemptResult where
  error : List Nat
  fileNameUI : List Nat
  progressEvents : List ℚ
  savedFile : Option (List Nat × List Nat)
deriving DecidableEq

/-- The message the catch block surfaces for each failure mode: the
template literal of line 39, the literal of line 41, or the message of
the exception thrown while reading. -/
def failureMessage (resp : Response) : List Nat :=
  if !resp.ok then
    str ("Download failed: ") ++ natToUnits resp.status ++ [32] ++ resp.errorBody
  else if !resp.hasBody then str ("Response body is null")
  else (resp.readError).getD []

/-- handleDownload, lines 28 to 93: a non-ok status or an absent body
throws before the loop; otherwise the loop consumes the delivered
chunks; an exception from reader.read() reaches the catch block with
the buffered chunks abandoned; on normal termination the blob is
assembled and handed to the anchor under the derived name. -/
def handleDownload (dt : DownloadType) (resp : Response) : AttemptResult :=
  if !resp.ok then
    { error := str ("Download failed: ") ++ natToUnits resp.status ++ [32] ++ resp.errorBody
      fileNameUI := []
      progressEvents := []
      savedFile := none }
  else if !resp.hasBody then
    { error := str ("Response body is null")
      fileNameUI := []
      progressEvents := []
      savedFile := none }
  else
    let s := runLoop resp.chunks
    match resp.readError with
    | some msg =>
      { error := msg
        fileNameUI := (s.fileNameSet).getD []
        progressEvents := s.progressEvents
        savedFile := none }
    | none =>
      { error := []
        fileNameUI := (s.fileNameSet).getD []
        progressEvents := s.progressEvents
        savedFile := some (s.chunks.flatten, outputFileName s.currentFileName dt) }

/-- The component state touched by the reset on lines 21 to 24. -/
structure UIState where
  isDownloading : Bool
  progress : ℚ
  fileName : List Nat
  error : List Nat
deriving DecidableEq

/-- Lines 21 to 26 and 44 to 47: the four unconditional state setters
executed at the start of every attempt, followed by the fresh local
loop state; no chunk is processed before this point. -/
def startAttempt (prev : UIState) : UIState × Session :=
  let u1 := { prev with isDownloading := true }
  let u2 := { u1 with progress := 0 }
  let u3 := { u2 with error := [] }
  let u4 := { u3 with fileName := [] }
  (u4, initialSession)

/-! Helper lemmas about the decoder, the search for the terminator, and
the two halves of the loop body. -/

lemma utf8ToUtf16_cons_ascii (b : Nat) (bs : List Nat) (hb : b < 128) :
    utf8ToUtf16 (b :: bs) = b :: utf8ToUtf16 bs := by
  rw [utf8ToUtf16.eq_def]
  simp [hb]

lemma utf8ToUtf16_append_ascii (h rest : List Nat) (hA : ∀ c ∈ h, c < 128) :
    utf8ToUtf16 (h ++ rest) = h ++ utf8ToUtf16 rest := by
  induction h with
  | nil => rfl
  | cons b h ih =>
    have hb : b < 128 := hA b (by simp)
    have ih2 := ih (fun c hc => hA c (by simp [hc]))
    simp [utf8ToUtf16_cons_ascii b _ hb, ih2]

lemma jsIndexOf_append_cons (h t : List Nat) (a : Nat) (hN : a ∉ h) :
    jsIndexOf (h ++ a :: t) a = some h.length := by
  induction h with
  | nil => simp [jsIndexOf]
  | cons c h ih =>
    have hc : c ≠ a := by
      intro hca
      exact hN (by simp [hca])
    have ih2 := ih (fun hmem => hN (by simp [hmem]))
    simp [jsIndexOf, hc, ih2]

lemma drop_append_cons (h p : List Nat) (a : Nat) :
    (h ++ a :: p).drop (h.length + 1) = p := by
  induction h with
  | nil => simp
  | cons c h ih => simp [ih]

lemma bufferChunk_found (s : Session) (v : List Nat) (k : Nat)
    (hm : s.metadataReceived = false)
    (hk : jsIndexOf (utf8ToUtf16 v) 10 = some k) :
    bufferChunk s v =
      { s with
        currentFileName := (parseMetadata ((utf8ToUtf16 v).take k) s.currentFileName).1
        totalLength := (parseMetadata ((utf8ToUtf16 v).take k) s.currentFileName).2
        fileNameSet := some (parseMetadata ((utf8ToUtf16 v).take k) s.currentFileName).1
        metadataReceived := true
        chunks := s.chunks ++ [v.drop (k + 1)]
        receivedLength := s.receivedLength + ((v.length : Int) - ((k : Int) + 1)) } := by
  simp [bufferChunk, hm, hk]

lemma bufferChunk_missed (s : Session) (v : List Nat)
    (hm : s.metadataReceived = false)
    (hk : jsIndexOf (utf8ToUtf16 v) 10 = none) :
    bufferChunk s v = s := by
  simp [bufferChunk, hm, hk]

lemma bufferChunk_after (s : Session) (v : List Nat)
    (hm : s.metadataReceived = true) :
    bufferChunk s v =
      { s with
        chunks := s.chunks ++ [v]
        receivedLength := s.receivedLength + (v.length : Int) } := by
  simp [bufferChunk, hm]

lemma bufferChunk_progressEvents (s : Session) (v : List Nat) :
    (bufferChunk s v).progressEvents = s.progressEvents := by
  unfold bufferChunk
  cases hm : s.metadataReceived
  · cases hk : jsIndexOf (utf8ToUtf16 v) 10 <;> simp [hk]
  · simp

lemma bufferChunk_header (s : Session) (h p : List Nat)
    (hm : s.metadataReceived = false)
    (hA : ∀ c ∈ h, c < 128) (hN : 10 ∉ h) :
    bufferChunk s (h ++ 10 :: p) =
      { s with
        currentFileName := (parseMetadata h s.currentFileName).1
        totalLength := (parseMetadata h s.currentFileName).2
        fileNameSet := some (parseMetadata h s.currentFileName).1
        metadataReceived := true
        chunks := s.chunks ++ [p]
        receivedLength := s.receivedLength + (p.length : Int) } := by
  have hdec : utf8ToUtf16 (h ++ 10 :: p) = h ++ 10 :: utf8ToUtf16 p := by
    rw [utf8ToUtf16_append_ascii h _ hA, utf8ToUtf16_cons_ascii 10 _ (by norm_num)]
  have hidx : jsIndexOf (utf8ToUtf16 (h ++ 10 :: p)) 10 = some h.length := by
    rw [hdec]
    exact jsIndexOf_append_cons h _ 10 hN
  have htake : (utf8ToUtf16 (h ++ 10 :: p)).take h.length = h := by
    rw [hdec]
    exact List.take_left h _
  have hdrop : (h ++ 10 :: p).drop (h.length + 1) = p := drop_append_cons h p 10
  have hlen : ((h ++ 10 :: p).length : Int) - ((h.length : Int) + 1) = (p.length : Int) := by
    simp [List.length_append]
  rw [bufferChunk_found s _ h.length hm hidx, htake, hdrop, hlen]

@[simp] lemma reportProgress_chunks (s : Session) :
    (reportProgress s).chunks = s.chunks := by
  rcases hk : s.totalLength with _ | t
  · simp [reportProgress, hk]
  · by_cases h0 : t = 0 <;> simp [reportProgress, hk, h0]

@[simp] lemma reportProgress_receivedLength (s : Session) :
    (reportProgress s).receivedLength = s.receivedLength := by
  rcases hk : s.totalLength with _ | t
  · simp [reportProgress, hk]
  · by_cases h0 : t = 0 <;> simp [reportProgress, hk, h0]

@[simp] lemma reportProgress_totalLength (s : Session) :
    (reportProgress s).totalLength = s.totalLength := by
  rcases hk : s.totalLength with _ | t
  · simp [reportProgress, hk]
  · by_cases h0 : t = 0 <;> simp [reportProgress, hk, h0]

@[simp] lemma reportProgress_metadataReceived (s : Session) :
    (reportProgress s).metadataReceived = s.metadataReceived := by
  rcases hk : s.totalLength with _ | t
  · simp [reportProgress, hk]
  · by_cases h0 : t = 0 <;> simp [reportProgress, hk, h0]

@[simp] lemma reportProgress_currentFileName (s : Session) :
    (reportProgress s).currentFileName = s.currentFileName := by
  rcases hk : s.totalLength with _ | t
  · simp [reportProgress, hk]
  · by_cases h0 : t = 0 <;> simp [reportProgress, hk, h0]

@[simp] lemma reportProgress_fileNameSet (s : Session) :
    (reportProgress s).fileNameSet = s.fileNameSet := by
  rcases hk : s.totalLength with _ | t
  · simp [reportProgress, hk]
  · by_cases h0 : t = 0 <;> simp [reportProgress, hk, h0]

lemma reportProgress_of_none (s : Session) (hk : s.totalLength = none) :
    reportProgress s = s := by
  simp [reportProgress, hk]

lemma reportProgress_of_zero (s : Session) (hk : s.totalLength = some 0) :
    reportProgress s = s := by
  simp [reportProgress, hk]

lemma reportProgress_of_some (s : Session) (t : Int) (hk : s.totalLength = some t)
    (h0 : t ≠ 0) :
    (reportProgress s).progressEvents =
      s.progressEvents ++ [((s.receivedLength : ℚ) / (t : ℚ)) * 100] := by
  simp [reportProgress, hk, h0]

/-- Once the metadata transition has happened, the remainder of the loop
appends every chunk verbatim, adds its byte length to the received
count, and leaves the name, the total length and the transition flag
unchanged; when the total length is unknown it emits no progress. -/
lemma readLoop_after_meta (l : List (List Nat)) :
    ∀ s : Session, s.metadataReceived = true →
    (List.foldl readLoopStep s l).chunks = s.chunks ++ l ∧
    (List.foldl readLoopStep s l).receivedLength =
      s.receivedLength + (l.map (fun c => (c.length : Int))).sum ∧
    (List.foldl readLoopStep s l).metadataReceived = true ∧
    (List.foldl readLoopStep s l).totalLength = s.totalLength ∧
    (List.foldl readLoopStep s l).currentFileName = s.currentFileName ∧
    (List.foldl readLoopStep s l).fileNameSet = s.fileNameSet ∧
    (s.totalLength = none →
      (List.foldl readLoopStep s l).progressEvents = s.progressEvents) := by
  induction l with
  | nil => intro s hm; simp [hm]
  | cons v l ih =>
    intro s hm
    have hstep : List.foldl readLoopStep s (v :: l) =
        List.foldl readLoopStep (readLoopStep s v) l := rfl
    have hbuf := bufferChunk_after s v hm
    have hm1 : (readLoopStep s v).metadataReceived = true := by
      simp [readLoopStep, hbuf, hm]
    obtain ⟨ih1, ih2, ih3, ih4, ih5, ih6, ih7⟩ := ih (readLoopStep s v) hm1
    rw [hstep]
    refine ⟨?_, ?_, ih3, ?_, ?_, ?_, ?_⟩
    · rw [ih1]
      simp [readLoopStep, hbuf]
    · rw [ih2]
      simp [readLoopStep, hbuf]
      ring
    · rw [ih4]
      simp [readLoopStep, hbuf]
    · rw [ih5]
      simp [readLoopStep, hbuf]
    · rw [ih6]
      simp [readLoopStep, hbuf]
    · intro hnone
      have hs1 : (readLoopStep s v).totalLength = none := by
        simp [readLoopStep, hbuf, hnone]
      have hrp : reportProgress (bufferChunk s v) = bufferChunk s v :=
        reportProgress_of_none _ (by rw [hbuf]; exact hnone)
      rw [ih7 hs1]
      simp [readLoopStep, hrp, bufferChunk_progressEvents]

lemma runLoop_append_one (pre : List (List Nat)) (c : List Nat) :
    runLoop (pre ++ [c]) = readLoopStep (runLoop pre) c := by
  simp [runLoop, List.foldl_append]

lemma readLoopStep_progress_total (s : Session) (v : List Nat) (t : Int)
    (ht : (readLoopStep s v).totalLength = some t) (h0 : t ≠ 0) :
    (readLoopStep s v).progressEvents =
      s.progressEvents ++ [(((readLoopStep s v).receivedLength : ℚ) / (t : ℚ)) * 100] := by
  have hb : (bufferChunk s v).totalLength = some t := by
    rw [readLoopStep, reportProgress_totalLength] at ht
    exact ht
  rw [readLoopStep, reportProgress_of_some _ t hb h0, bufferChunk_progressEvents,
    reportProgress_receivedLength]

/-- The first chunk carries an all-ASCII header followed by the
terminator and the payload bytes: the session after the whole loop, in
terms of the parsed header and the payload. -/
lemma runLoop_header (h p : List Nat) (rest : List (List Nat))
    (hA : ∀ c ∈ h, c < 128) (hN : 10 ∉ h) :
    (runLoop ((h ++ 10 :: p) :: rest)).chunks = p :: rest ∧
    (runLoop ((h ++ 10 :: p) :: rest)).receivedLength =
      (p.length : Int) + (rest.map (fun c => (c.length : Int))).sum ∧
    (runLoop ((h ++ 10 :: p) :: rest)).metadataReceived = true ∧
    (runLoop ((h ++ 10 :: p) :: rest)).totalLength =
      (parseMetadata h (str ("download"))).2 ∧
    (runLoop ((h ++ 10 :: p) :: rest)).currentFileName =
      (parseMetadata h (str ("download"))).1 ∧
    (runLoop ((h ++ 10 :: p) :: rest)).fileNameSet =
      some (parseMetadata h (str ("download"))).1 := by
  have hbuf := bufferChunk_header initialSession h p rfl hA hN
  have hrun : runLoop ((h ++ 10 :: p) :: rest) =
      List.foldl readLoopStep (readLoopStep initialSession (h ++ 10 :: p)) rest := rfl
  have hm1 : (readLoopStep initialSession (h ++ 10 :: p)).metadataReceived = true := by
    simp [readLoopStep, hbuf]
  obtain ⟨a1, a2, a3, a4, a5, a6, _⟩ :=
    readLoop_after_meta rest (readLoopStep initialSession (h ++ 10 :: p)) hm1
  rw [hrun]
  refine ⟨?_, ?_, a3, ?_, ?_, ?_⟩
  · rw [a1]
    simp only [readLoopStep, reportProgress_chunks]
    rw [hbuf]
    simp [initialSession]
  · rw [a2]
    simp only [readLoopStep, reportProgress_receivedLength]
    rw [hbuf]
    simp [initialSession]
  · rw [a4]
    simp only [readLoopStep, reportProgress_totalLength]
    rw [hbuf]
    simp [initialSession]
  · rw [a5]
    simp only [readLoopStep, reportProgress_currentFileName]
    rw [hbuf]
    simp [initialSession]
  · rw [a6]
    simp only [readLoopStep, reportProgress_fileNameSet]
    rw [hbuf]
    simp [initialSession]

/-- Helper for extension stripping: a run of characters satisfying the
predicate followed by one that does not determines the takeWhile. -/
lemma takeWhile_append_block (q : Nat → Bool) (l : List Nat) (b : Nat) (r : List Nat)
    (hl : ∀ c ∈ l, q c = true) (hb : q b = false) :
    (l ++ b :: r).takeWhile q = l := by
  induction l with
  | nil => simp [List.takeWhile_cons, hb]
  | cons c l ih =>
    have hc : q c = true := hl c (by simp)
    have ih2 := ih (fun c hc2 => hl c (by simp [hc2]))
    simp [List.takeWhile_cons, hc, ih2]

lemma drop_takeWhile_length (q : Nat → Bool) (r : List Nat) :
    r.drop (r.takeWhile q).length = r.dropWhile q := by
  nth_rewrite 2 [← @List.takeWhile_append_dropWhile _ q r]
  exact List.drop_left _ _

/-- The replace on line 85 removes a final dot-extension: when the name
decomposes as a stem, a dot and a nonempty extension free of dots and
slashes, the result is the stem. -/
lemma stripExt_suffix (stem ext : List Nat) (hne : ext ≠ [])
    (hgood : ∀ c ∈ ext, c ≠ 46 ∧ c ≠ 47) :
    stripExt (stem ++ 46 :: ext) = stem := by
  have hrev : (stem ++ 46 :: ext).reverse = ext.reverse ++ 46 :: stem.reverse := by
    simp [List.reverse_append]
  have hq : ∀ c ∈ ext.reverse, (fun c => !(c == 46) && !(c == 47)) c = true := by
    intro c hc
    obtain ⟨h1, h2⟩ := hgood c (List.mem_reverse.mp hc)
    simp [h1, h2]
  have htW : ((stem ++ 46 :: ext).reverse.takeWhile fun c => !(c == 46) && !(c == 47)) =
      ext.reverse := by
    rw [hrev]
    exact takeWhile_append_block _ _ _ _ hq (by decide)
  have hie : (ext.reverse).isEmpty = false := by
    simp [List.isEmpty_iff, hne]
  have hdrop : (stem ++ 46 :: ext).reverse.drop (ext.reverse).length =
      46 :: stem.reverse := by
    rw [hrev]
    exact List.drop_left _ _
  rw [stripExt, htW, hie, hdrop]
  simp

/-- The replace on line 85 leaves the name unchanged when no final
dot-extension exists. -/
lemma stripExt_no_suffix (s : List Nat)
    (hno : ∀ stem ext, s = stem ++ 46 :: ext →
      ext = [] ∨ ∃ c ∈ ext, c = 46 ∨ c = 47) :
    stripExt s = s := by
  rw [stripExt]
  by_cases hie : (s.reverse.takeWhile fun c => !(c == 46) && !(c == 47)).isEmpty
  · simp [hie]
  · rw [if_neg hie]
    rcases hdrop : s.reverse.drop
        (s.reverse.takeWhile fun c => !(c == 46) && !(c == 47)).length with _ | ⟨d, rest⟩
    · rfl
    · by_cases hd : d = 46
      · exfalso
        subst hd
        have hsplit : s.reverse =
            (s.reverse.takeWhile fun c => !(c == 46) && !(c == 47)) ++ 46 :: rest := by
          nth_rewrite 1 [← @List.takeWhile_append_dropWhile _
            (fun c => !(c == 46) && !(c == 47)) s.reverse]
          rw [← drop_takeWhile_length, hdrop]
        have hs : s = rest.reverse ++ 46 ::
            (s.reverse.takeWhile fun c => !(c == 46) && !(c == 47)).reverse := by
          have := congrArg List.reverse hsplit
          simpa [List.reverse_append] using this
        rcases hno _ _ hs with hnil | ⟨c, hc, hcv⟩
        · have : (s.reverse.takeWhile fun c => !(c == 46) && !(c == 47)) = [] := by
            simpa using congrArg List.reverse hnil
          rw [this] at hie
          simp at hie
        · have hcmem : c ∈ s.reverse.takeWhile fun c => !(c == 46) && !(c == 47) :=
            List.mem_reverse.mp hc
          have := List.mem_takeWhile_imp hcmem
          rcases hcv with h46 | h47
          · simp [h46] at this
          · simp [h47] at this
      · simp [hd]

/-! Claim C1. -/

/-- C1 counterexample: the ordering claim is false as stated.  The single
delivered chunk 195 169 124 53 10 104 105 is the UTF-8 header for the
file name U+00E9 and size 5 followed by the payload bytes 104 105; the
terminator byte 10 sits at byte index 4, so the payload portion of the
chunk (bytes after the terminator) is 104 105; yet the assembled blob is
10 104 105: it contains the header terminator byte, because line 66
slices the byte array at the index found on line 56 in the decoded text,
where the two header bytes 195 169 are a single code unit. -/
theorem c1_ordering_counterexample :
    jsIndexOf [195, 169, 124, 53, 10, 104, 105] 10 = some 4 ∧
    [195, 169, 124, 53, 10, 104, 105].drop (4 + 1) = [104, 105] ∧
    assembledBlob [[195, 169, 124, 53, 10, 104, 105]] = [10, 104, 105] ∧
    assembledBlob [[195, 169, 124, 53, 10, 104, 105]] ≠ [104, 105] := by
  decide

/-- C1 amended: for every sequence of delivered chunks in which the
first chunk contains the line terminator and every byte before the
terminator is ASCII (below 128), the assembled blob equals the payload
portion of the first chunk (bytes after the terminator) followed by
every subsequent chunk in full, in arrival order, with the header bytes
excluded exactly once and no re-encoding or reordering. -/
theorem c1_ordering_ascii (h p : List Nat) (rest : List (List Nat))
    (hA : ∀ c ∈ h, c < 128) (hN : 10 ∉ h) :
    assembledBlob ((h ++ 10 :: p) :: rest) = p ++ rest.flatten := by
  have hx := (runLoop_header h p rest hA hN).1
  show (runLoop ((h ++ 10 :: p) :: rest)).chunks.flatten = p ++ rest.flatten
  rw [hx]
  simp

/-- C1 witness: a concrete run of the amended ordering theorem. -/
theorem c1_ordering_ascii_witness :
    assembledBlob (([102, 124, 53] ++ 10 :: [1, 2, 3]) :: [[4, 5]]) =
      [1, 2, 3] ++ [[4, 5]].flatten :=
  c1_ordering_ascii [102, 124, 53] [1, 2, 3] [[4, 5]] (by decide) (by decide)

/-! Claim C2. -/

/-- C2 counterexample: the progress claim is false as stated.  In the
single chunk 97 124 48 10 120 the header declares size 0, which parseInt
parses, so the total length is known; yet no progress value at all is
reported after the chunk, because 0 is falsy in the guard on line 74. -/
theorem c2_progress_counterexample :
    (runLoop [[97, 124, 48, 10, 120]]).totalLength = some 0 ∧
    (runLoop [[97, 124, 48, 10, 120]]).progressEvents = [] := by
  decide

/-- C2 amended: whenever the total length parsed from the metadata
header is known and nonzero, the reported progress after every chunk
equals receivedBytes divided by totalBytes times 100, with no clamping,
and the value can exceed 100 when the server under-reports the total
length (second conjunct: a run whose header declares size 1 but carries
two payload bytes reports a value above 100). -/
theorem c2_progress_formula :
    (∀ (pre : List (List Nat)) (c : List Nat) (t : Int),
      (runLoop (pre ++ [c])).totalLength = some t → t ≠ 0 →
      (runLoop (pre ++ [c])).progressEvents.getLast? =
        some ((((runLoop (pre ++ [c])).receivedLength : ℚ) / (t : ℚ)) * 100)) ∧
    (∃ q ∈ (runLoop [[97, 124, 49, 10, 120, 121]]).progressEvents, 100 < q) := by
  constructor
  · intro pre c t ht h0
    rw [runLoop_append_one] at ht ⊢
    rw [readLoopStep_progress_total _ _ t ht h0]
    exact List.getLast?_concat _
  · have hpe : (runLoop [[97, 124, 49, 10, 120, 121]]).progressEvents =
        [(((2 : Int) : ℚ) / ((1 : Int) : ℚ)) * 100] := rfl
    rw [hpe]
    refine ⟨_, List.mem_singleton_self _, ?_⟩
    norm_num

/-- C2 witness: a concrete run of the amended progress theorem, with the
header declaring size 2 and one payload byte received. -/
theorem c2_progress_formula_witness :
    (runLoop ([] ++ [[97, 124, 50, 10, 120]])).progressEvents.getLast? =
      some ((((runLoop ([] ++ [[97, 124, 50, 10, 120]])).receivedLength : ℚ) /
        ((2 : Int) : ℚ)) * 100) :=
  c2_progress_formula.1 [] [97, 124, 50, 10, 120] 2 (by decide) (by decide)

/-! Claim C3. -/

/-- C3: when the header size field of the first chunk is not parseable
as a base-10 integer, the attempt is not treated as an error: the total
length stays unknown, no progress percentage is ever emitted during the
attempt, and chunk buffering and completion (blob assembly and
file-name derivation) still succeed. -/
theorem c3_malformed_size (dt : DownloadType) (st : Nat) (eb : List Nat)
    (c0 : List Nat) (rest : List (List Nat)) (k : Nat)
    (hk : jsIndexOf (utf8ToUtf16 c0) 10 = some k)
    (hsz : (parseMetadata ((utf8ToUtf16 c0).take k) (str ("download"))).2 = none) :
    (runLoop (c0 :: rest)).totalLength = none ∧
    (handleDownload dt ⟨true, st, eb, true, c0 :: rest, none⟩).progressEvents = [] ∧
    (handleDownload dt ⟨true, st, eb, true, c0 :: rest, none⟩).error = [] ∧
    ∃ b n, (handleDownload dt ⟨true, st, eb, true, c0 :: rest, none⟩).savedFile =
      some (b, n) := by
  have hsz2 : (parseMetadata ((utf8ToUtf16 c0).take k) initialSession.currentFileName).2 =
      none := hsz
  have hbuf := bufferChunk_found initialSession c0 k rfl hk
  have hs1TL : (bufferChunk initialSession c0).totalLength = none := by
    rw [hbuf]
    exact hsz2
  have hstep : readLoopStep initialSession c0 = bufferChunk initialSession c0 := by
    rw [readLoopStep, reportProgress_of_none _ hs1TL]
  have hm1 : (readLoopStep initialSession c0).metadataReceived = true := by
    rw [hstep, hbuf]
  obtain ⟨a1, a2, a3, a4, a5, a6, a7⟩ := readLoop_after_meta rest _ hm1
  have hrun : runLoop (c0 :: rest) =
      List.foldl readLoopStep (readLoopStep initialSession c0) rest := rfl
  have hTL : (runLoop (c0 :: rest)).totalLength = none := by
    rw [hrun, a4, hstep]
    exact hs1TL
  have hPE : (runLoop (c0 :: rest)).progressEvents = [] := by
    rw [hrun, a7 (by rw [hstep]; exact hs1TL), hstep, bufferChunk_progressEvents]
    rfl
  have hHD : handleDownload dt ⟨true, st, eb, true, c0 :: rest, none⟩ =
      { error := []
        fileNameUI := ((runLoop (c0 :: rest)).fileNameSet).getD []
        progressEvents := (runLoop (c0 :: rest)).progressEvents
        savedFile := some ((runLoop (c0 :: rest)).chunks.flatten,
          outputFileName (runLoop (c0 :: rest)).currentFileName dt) } := rfl
  refine ⟨hTL, ?_, ?_, ?_⟩
  · rw [hHD]
    exact hPE
  · rw [hHD]
  · exact ⟨_, _, by rw [hHD]⟩

/-- C3 witness: the first chunk carries the header with size field abc
followed by two payload bytes; the size does not parse, no progress is
reported, and completion succeeds. -/
theorem c3_malformed_size_witness :
    (runLoop ([102, 124, 97, 98, 99, 10, 104, 105] :: [])).totalLength = none ∧
    (handleDownload DownloadType.video
      ⟨true, 200, [], true, [102, 124, 97, 98, 99, 10, 104, 105] :: [], none⟩).progressEvents = [] ∧
    (handleDownload DownloadType.video
      ⟨true, 200, [], true, [102, 124, 97, 98, 99, 10, 104, 105] :: [], none⟩).error = [] ∧
    ∃ b n, (handleDownload DownloadType.video
      ⟨true, 200, [], true, [102, 124, 97, 98, 99, 10, 104, 105] :: [], none⟩).savedFile =
      some (b, n) :=
  c3_malformed_size DownloadType.video 200 [] [102, 124, 97, 98, 99, 10, 104, 105] [] 5
    (by decide) (by decide)

/-! Claim C4. -/

/-- C4: for every response with a non-success status, the attempt ends
in the failed state (a nonempty error message) whose text contains both
the decimal status code and the server-supplied error body, and no blob
is produced. -/
theorem c4_http_failure (dt : DownloadType) (resp : Response)
    (hok : resp.ok = false) :
    (handleDownload dt resp).error ≠ [] ∧
    List.IsInfix (natToUnits resp.status) (handleDownload dt resp).error ∧
    List.IsInfix resp.errorBody (handleDownload dt resp).error ∧
    (handleDownload dt resp).savedFile = none := by
  have hHD : handleDownload dt resp =
      { error := str ("Download failed: ") ++ natToUnits resp.status ++ [32] ++ resp.errorBody
        fileNameUI := []
        progressEvents := []
        savedFile := none } := by
    simp [handleDownload, hok]
  refine ⟨?_, ?_, ?_, ?_⟩
  · rw [hHD]
    simp [str]
  · exact ⟨str ("Download failed: "), [32] ++ resp.errorBody, by rw [hHD]; simp⟩
  · exact ⟨str ("Download failed: ") ++ natToUnits resp.status ++ [32], [],
      by rw [hHD]; simp⟩
  · rw [hHD]

/-- C4 witness: status 404 with body text not found. -/
theorem c4_http_failure_witness :
    (handleDownload DownloadType.video
      ⟨false, 404, str ("not found"), true, [], none⟩).error ≠ [] ∧
    List.IsInfix (natToUnits 404)
      (handleDownload DownloadType.video
        ⟨false, 404, str ("not found"), true, [], none⟩).error ∧
    List.IsInfix (str ("not found"))
      (handleDownload DownloadType.video
        ⟨false, 404, str ("not found"), true, [], none⟩).error ∧
    (handleDownload DownloadType.video
      ⟨false, 404, str ("not found"), true, [], none⟩).savedFile = none :=
  c4_http_failure DownloadType.video ⟨false, 404, str ("not found"), true, [], none⟩ rfl

/-! Claim C5. -/

/-- C5: for every failing attempt, by non-success status, absent body,
or an exception thrown while reading chunks, no file is handed to the
saving collaborator (the partial buffer is discarded with the local
state of the attempt) and only the error message of that failure is
surfaced. -/
theorem c5_failure_no_partial (dt : DownloadType) (resp : Response)
    (hfail : resp.ok = false ∨ resp.hasBody = false ∨ resp.readError ≠ none) :
    (handleDownload dt resp).savedFile = none ∧
    (handleDownload dt resp).error = failureMessage resp := by
  cases hok : resp.ok with
  | false => exact ⟨by simp [handleDownload, hok], by simp [handleDownload, failureMessage, hok]⟩
  | true =>
    cases hbody : resp.hasBody with
    | false =>
      exact ⟨by simp [handleDownload, hok, hbody],
        by simp [handleDownload, failureMessage, hok, hbody]⟩
    | true =>
      cases hre : resp.readError with
      | none => simp [hok, hbody, hre] at hfail
      | some m =>
        exact ⟨by simp [handleDownload, hok, hbody, hre],
          by simp [handleDownload, failureMessage, hok, hbody, hre]⟩

/-- C5 witness: an exception with message boom thrown while reading,
after one chunk was already buffered. -/
theorem c5_failure_no_partial_witness :
    (handleDownload DownloadType.audio
      ⟨true, 200, [], true, [[1, 2]], some (str ("boom"))⟩).savedFile = none ∧
    (handleDownload DownloadType.audio
      ⟨true, 200, [], true, [[1, 2]], some (str ("boom"))⟩).error =
      failureMessage ⟨true, 200, [], true, [[1, 2]], some (str ("boom"))⟩ :=
  c5_failure_no_partial DownloadType.audio
    ⟨true, 200, [], true, [[1, 2]], some (str ("boom"))⟩
    (Or.inr (Or.inr (by decide)))

/-! Claim C6. -/

/-- C6: for every working file name with zero or one dot-suffix and
every mode, the output name at completion equals the name with its last
dot-extension suffix (if any) removed, concatenated with .mp3 for audio
and .mp4 for video.  The first conjunct treats names that decompose as
a stem, a dot and a nonempty extension free of dots and slashes; the
second treats names with no such suffix. -/
theorem c6_extension_correct (name : List Nat) (dt : DownloadType)
    (hdots : name.count 46 ≤ 1) :
    (∀ stem ext, name = stem ++ 46 :: ext → ext ≠ [] →
      (∀ c ∈ ext, c ≠ 46 ∧ c ≠ 47) →
      outputFileName name dt = stem ++ fileExt dt) ∧
    ((∀ stem ext, name = stem ++ 46 :: ext →
        ext = [] ∨ ∃ c ∈ ext, c = 46 ∨ c = 47) →
      outputFileName name dt = name ++ fileExt dt) := by
  constructor
  · intro stem ext hdec hne hgood
    rw [outputFileName, hdec, stripExt_suffix stem ext hne hgood]
  · intro hno
    rw [outputFileName, stripExt_no_suffix name hno]

/-- C6 witness: scenario 4 of the specification, audio mode on the name
song.ogg yields song.mp3. -/
theorem c6_extension_correct_witness :
    outputFileName (str ("song.ogg")) DownloadType.audio =
      str ("song") ++ fileExt DownloadType.audio :=
  (c6_extension_correct (str ("song.ogg")) DownloadType.audio (by decide)).1
    (str ("song")) (str ("ogg")) (by decide) (by decide) (by decide)

/-! Claim C7. -/

/-- C7 counterexample: the received-byte claim is false as stated.  The
chunk 195 169 124 50 10 104 105 is the UTF-8 header for the name U+00E9
with declared size 2 followed by exactly two payload bytes, so the total
length is correctly reported; yet receivedLength ends at 3, not 2: the
increment on line 67 uses the code-unit index of the terminator and so
counts a header byte. -/
theorem c7_received_counterexample :
    (runLoop [[195, 169, 124, 50, 10, 104, 105]]).totalLength = some 2 ∧
    jsIndexOf [195, 169, 124, 50, 10, 104, 105] 10 = some 4 ∧
    [195, 169, 124, 50, 10, 104, 105].drop (4 + 1) = [104, 105] ∧
    (runLoop [[195, 169, 124, 50, 10, 104, 105]]).receivedLength = 3 := by
  decide

/-- C7 amended: when every byte before the terminator of the header
chunk is ASCII, the received count after the metadata transition equals
exactly the payload length of that chunk (header bytes are never
counted), the count is non-decreasing from each chunk to the next, and
at completion it equals the total payload byte count, hence the declared
total length whenever the server reports it correctly. -/
theorem c7_received_ascii (h p0 : List Nat) (rest : List (List Nat))
    (hA : ∀ c ∈ h, c < 128) (hN : 10 ∉ h) :
    (runLoop [h ++ 10 :: p0]).receivedLength = (p0.length : Int) ∧
    (runLoop ((h ++ 10 :: p0) :: rest)).receivedLength =
      (p0.length : Int) + (rest.map (fun c => (c.length : Int))).sum ∧
    (∀ i : Nat,
      (runLoop (((h ++ 10 :: p0) :: rest).take i)).receivedLength ≤
      (runLoop (((h ++ 10 :: p0) :: rest).take (i + 1))).receivedLength) := by
  refine ⟨?_, (runLoop_header h p0 rest hA hN).2.1, ?_⟩
  · have := (runLoop_header h p0 [] hA hN).2.1
    simpa using this
  · intro i
    cases i with
    | zero =>
      have h1 : (runLoop (((h ++ 10 :: p0) :: rest).take 1)).receivedLength =
          (p0.length : Int) := by
        have := (runLoop_header h p0 [] hA hN).2.1
        simpa using this
      have h0 : (runLoop (((h ++ 10 :: p0) :: rest).take 0)).receivedLength = 0 := rfl
      rw [h0, h1]
      exact Int.ofNat_nonneg _
    | succ j =>
      have hTk : ∀ m : Nat, ((h ++ 10 :: p0) :: rest).take (m + 1) =
          (h ++ 10 :: p0) :: rest.take m := by
        intro m
        rfl
      have hj := (runLoop_header h p0 (rest.take j) hA hN).2.1
      have hj1 := (runLoop_header h p0 (rest.take (j + 1)) hA hN).2.1
      rw [hTk j, hTk (j + 1), hj, hj1]
      have hs : ((rest.take j).map (fun c => (c.length : Int))).sum ≤
          ((rest.take (j + 1)).map (fun c => (c.length : Int))).sum := by
        rw [List.take_succ, List.map_append, List.sum_append]
        have hnn : 0 ≤ ((rest[j]?.toList).map (fun c => (c.length : Int))).sum := by
          rcases rest[j]? with _ | c <;> simp
        omega
      omega

/-- C7 witness: a concrete run of the amended received-count theorem. -/
theorem c7_received_ascii_witness :
    (runLoop [[102, 124, 53] ++ 10 :: [104, 105]]).receivedLength =
      (([104, 105] : List Nat).length : Int) :=
  (c7_received_ascii [102, 124, 53] [104, 105] [] (by decide) (by decide)).1

/-! Claim C8. -/

/-- C8: starting a new download attempt always clears the prior file
name, error message and progress state, whatever they were, before the
first chunk of the new attempt is processed: the UI state entering the
read loop has progress 0, empty error and empty file name, and the loop
state is the fresh initial session. -/
theorem c8_reset (prev : UIState) :
    startAttempt prev =
      ({ isDownloading := true, progress := 0, fileName := [], error := [] },
        initialSession) := rfl

/-! Claim C9. -/

/-- C9 counterexample: the empty-payload claim is false as stated.  The
single chunk 195 169 124 53 10 is a valid header (UTF-8 name U+00E9,
size 5) whose terminator is the final byte, so zero payload bytes
follow it before end of data; yet the assembled blob is the nonempty
list holding the terminator byte 10, again because line 66 slices the
byte array at the code-unit index of the terminator. -/
theorem c9_empty_payload_counterexample :
    jsIndexOf [195, 169, 124, 53, 10] 10 = some 4 ∧
    [195, 169, 124, 53, 10].length = 4 + 1 ∧
    assembledBlob [[195, 169, 124, 53, 10]] = [10] ∧
    assembledBlob [[195, 169, 124, 53, 10]] ≠ [] := by
  decide

/-- C9 amended: for a stream delivering a single chunk that is an
all-ASCII header terminated by the line terminator with zero payload
bytes after it, the attempt completes with an empty assembled blob and
no error. -/
theorem c9_empty_payload_ascii (dt : DownloadType) (st : Nat) (eb h : List Nat)
    (hA : ∀ c ∈ h, c < 128) (hN : 10 ∉ h) :
    (handleDownload dt ⟨true, st, eb, true, [h ++ [10]], none⟩).error = [] ∧
    ∃ n, (handleDownload dt ⟨true, st, eb, true, [h ++ [10]], none⟩).savedFile =
      some ([], n) := by
  have hHD : handleDownload dt ⟨true, st, eb, true, [h ++ [10]], none⟩ =
      { error := []
        fileNameUI := ((runLoop [h ++ [10]]).fileNameSet).getD []
        progressEvents := (runLoop [h ++ [10]]).progressEvents
        savedFile := some ((runLoop [h ++ [10]]).chunks.flatten,
          outputFileName (runLoop [h ++ [10]]).currentFileName dt) } := rfl
  have hchunks : (runLoop [h ++ [10]]).chunks = [[]] :=
    (runLoop_header h [] [] hA hN).1
  have hflat : (runLoop [h ++ [10]]).chunks.flatten = [] := by
    rw [hchunks]
    rfl
  constructor
  · rw [hHD]
  · refine ⟨outputFileName (runLoop [h ++ [10]]).currentFileName dt, ?_⟩
    rw [hHD, hflat]

/-- C9 witness: the amended theorem at the concrete ASCII header f|0. -/
theorem c9_empty_payload_ascii_witness :
    (handleDownload DownloadType.video
      ⟨true, 200, [], true, [[102, 124, 48] ++ [10]], none⟩).error = [] ∧
    ∃ n, (handleDownload DownloadType.video
      ⟨true, 200, [], true, [[102, 124, 48] ++ [10]], none⟩).savedFile =
      some ([], n) :=
  c9_empty_payload_ascii DownloadType.video 200 [] [102, 124, 48]
    (by decide) (by decide)

/-! Claim C10. -/

/-- C10: a chunk that arrives before the metadata transition and
contains no line-terminator byte is discarded entirely: the run over
the stream with that chunk in front is identical to the run without it,
so its bytes are not buffered, not counted, and not carried over, a
header split across two reads loses every byte of the earlier read, and
the bytes before the terminator of the later read are parsed as the
whole header. -/
theorem c10_discard_headerless_chunk (c : List Nat) (rest : List (List Nat))
    (hk : jsIndexOf (utf8ToUtf16 c) 10 = none) :
    runLoop (c :: rest) = runLoop rest := by
  have h1 : readLoopStep initialSession c = initialSession := by
    rw [readLoopStep, bufferChunk_missed initialSession c rfl hk,
      reportProgress_of_none initialSession rfl]
  show List.foldl readLoopStep (readLoopStep initialSession c) rest = runLoop rest
  rw [h1]
  rfl

/-- C10 witness: a headerless first read containing the first half of a
split header line is dropped; the run equals the run on the remaining
chunks alone. -/
theorem c10_discard_headerless_chunk_witness :
    runLoop ([104, 105] :: [[102, 124, 53, 10, 97]]) =
      runLoop [[102, 124, 53, 10, 97]] :=
  c10_discard_headerless_chunk [104, 105] [[102, 124, 53, 10, 97]] (by decide)

end StreamingDownload
